import Mathlib

/-!
Verification of the chatstate session dispatch engine.

The Python sources under src/chatstate are embedded shallowly:
Python strings become lists of characters, dictionaries become
association lists, bound handler methods become abstract numeric
identifiers, and `datetime.now()` / `time.time()` become an explicit
`now : Nat` parameter threaded through each operation.
-/

namespace Chatstate

/-- Python text modelled as a list of characters. -/
abbrev PyStr := List Char

/-- Chat type codes from chatstate/__init__.py:
PRIVATE, GROUP, CHANNEL, SUPERGROUP, ANY, NONE = range(6). -/
def PRIVATE : Nat := 0

def GROUP : Nat := 1

def CHANNEL : Nat := 2

def SUPERGROUP : Nat := 3

def ANY : Nat := 4

def NONE : Nat := 5

/-- Python slice text[a : b] over a list of characters (offsets clamp). -/
def pySlice (s : PyStr) (a b : Nat) : PyStr := (s.drop a).take (b - a)

/-- text.rsplit('@', 1): splits at the last '@' when one is present.
BaseChatContext._split_recipient returns the two chunks exactly when the
split produced two of them, i.e. when the text holds at least one '@'. -/
def _split_recipient : PyStr → Option (PyStr × PyStr)
  | [] => none
  | c :: rest =>
    match _split_recipient rest with
    | some p => some (c :: p.1, p.2)
    | none => if c = '@' then some ([], rest) else none

/-- A message entity (telegram.MessageEntity): a typed span of the text. -/
structure Entity where
  type_ : PyStr
  offset : Nat
  length : Nat
deriving DecidableEq

/-- A chat member (telegram.User): only the fields the code reads. -/
structure Member where
  id : Int
  username : PyStr
deriving DecidableEq

/-- The fields of update.message that handle_message reads.  The media
fields record Python truthiness (object present vs None/empty). -/
structure Message where
  text : PyStr
  entities : List Entity
  new_chat_members : List Member
  left_chat_member : Option Member
  document : Bool
  photo : Bool
  video : Bool
deriving DecidableEq

/-- The state of one BaseChatContext (context.py) that the routing logic
reads: chat identity, the bot identity seen through the dispatcher, the
handler slots filled in by register_handler, and the last-active clock.
Handlers are abstract identifiers; the idle handler is modelled by the
boolean it returns (none when no idle handler is bound). -/
structure Ctx where
  chat_id : Int
  chat_type : Nat
  me_username : PyStr
  bot_id : Int
  message_handler : Option Nat
  command_handlers : List (PyStr × Nat)
  document_handler : Option Nat
  photo_handler : Option Nat
  video_handler : Option Nat
  callbackquery_handler : Option Nat
  event_handlers : List (PyStr × List Nat)
  activate_handler : Option Nat
  newchatmember_handler : Option Nat
  leftchatmember_handler : Option Nat
  idle_handler : Option Bool
  stop_handler : Option Bool
  last_active : Nat
deriving DecidableEq

def stop_text : PyStr := "/stop".toList

def bot_command_text : PyStr := "bot_command".toList

/-- The body of the _process_entities loop for one bot_command entity
text (context.py lines 96-113): split off an explicit @recipient, decide
addressing (for_me), and collect the removal request and the matched
command handler.  Returns (appended handlers, remove_chat_context calls). -/
def process_command (ctx : Ctx) (entity : PyStr) : List Nat × Nat :=
  let tokens := _split_recipient entity
  let command := match tokens with
    | some p => p.1
    | none => entity
  let for_me : Bool :=
    if ctx.chat_type = PRIVATE then true
    else match tokens with
      | some p => decide (p.2 = ctx.me_username)
      | none => false
  if for_me then
    let removals := if command = stop_text then 1 else 0
    match List.lookup command ctx.command_handlers with
    | some h => ([h], removals)
    | none => ([], removals)
  else ([], 0)

/-- One iteration of the _process_entities loop: slice the entity text out
of the message and process it when its type is bot_command. -/
def processEntity (ctx : Ctx) (m : Message) (ent : Entity) : List Nat × Nat :=
  let entity := pySlice m.text ent.offset (ent.offset + ent.length)
  if ent.type_ = bot_command_text then process_command ctx entity else ([], 0)

/-- BaseChatContext._process_entities: fold the per-entity results in
entity order, concatenating matched handlers and summing removal calls. -/
def _process_entities (ctx : Ctx) (m : Message) : List Nat × Nat :=
  m.entities.foldl
    (fun acc ent =>
      let r := processEntity ctx m ent
      (acc.1 ++ r.1, acc.2 + r.2))
    ([], 0)

/-- The command part of an entity text: the text before the last '@' when
one is present, the whole text otherwise. -/
def commandPart (entity : PyStr) : PyStr :=
  match _split_recipient entity with
  | some p => p.1
  | none => entity

/-- BaseChatContext.handle_message (context.py lines 50-88): set
last_active to now, then build the handler list by successive appends —
entity-derived command handlers, one new-member handler per joined member,
the left-member handler (or a self-removal when the bot itself left),
media handlers for present media, and finally the message handler slot,
appended unconditionally (even when it is None).  Returns the updated
context, the built handler list (each element an Option, exactly as the
Python list may hold None), and the number of remove_chat_context calls
issued while building. -/
def handle_message (now : Nat) (ctx : Ctx) (m : Message) :
    Ctx × List (Option Nat) × Nat :=
  let ctx' := { ctx with last_active := now }
  let handlers : List (Option Nat) := []
  let removals : Nat := 0
  let step1 : List (Option Nat) × Nat :=
    if m.entities = [] then (handlers, removals)
    else
      let pe := _process_entities ctx m
      (handlers ++ pe.1.map some, removals + pe.2)
  let handlers := step1.1
  let removals := step1.2
  let handlers :=
    m.new_chat_members.foldl
      (fun acc _ =>
        if ctx.newchatmember_handler.isSome then
          acc ++ [ctx.newchatmember_handler]
        else acc)
      handlers
  let step2 : List (Option Nat) × Nat :=
    match m.left_chat_member with
    | some member =>
      if member.id = ctx.bot_id then (handlers, removals + 1)
      else if ctx.leftchatmember_handler.isSome then
        (handlers ++ [ctx.leftchatmember_handler], removals)
      else (handlers, removals)
    | none => (handlers, removals)
  let handlers := step2.1
  let removals := step2.2
  let handlers :=
    if m.document && ctx.document_handler.isSome then
      handlers ++ [ctx.document_handler]
    else handlers
  let handlers :=
    if m.photo && ctx.photo_handler.isSome then
      handlers ++ [ctx.photo_handler]
    else handlers
  let handlers :=
    if m.video && ctx.video_handler.isSome then
      handlers ++ [ctx.video_handler]
    else handlers
  let handlers := handlers ++ [ctx.message_handler]
  (ctx', handlers, removals)

/-- The entity-derived command handler part of the handle_message list. -/
def command_handler_part (ctx : Ctx) (m : Message) : List (Option Nat) :=
  if m.entities = [] then [] else ((_process_entities ctx m).1.map some)

/-- The membership-change handler part of the handle_message list: one
new-member handler per joined member when bound, then the left-member
handler when a non-bot member left and one is bound. -/
def membership_part (ctx : Ctx) (m : Message) : List (Option Nat) :=
  (if ctx.newchatmember_handler.isSome then
     List.replicate m.new_chat_members.length ctx.newchatmember_handler
   else []) ++
  (match m.left_chat_member with
   | some member =>
     if member.id = ctx.bot_id then []
     else if ctx.leftchatmember_handler.isSome then [ctx.leftchatmember_handler]
     else []
   | none => [])

/-- The media handler part of the handle_message list: document, photo
and video handlers, each only when that media is present and bound. -/
def media_part (ctx : Ctx) (m : Message) : List (Option Nat) :=
  (if m.document && ctx.document_handler.isSome then [ctx.document_handler]
   else []) ++
  (if m.photo && ctx.photo_handler.isSome then [ctx.photo_handler]
   else []) ++
  (if m.video && ctx.video_handler.isSome then [ctx.video_handler]
   else [])

/-- Modelled from the spec (claim C5's reading of handle_message): the
default message handler is appended only when one is bound; everything
else as the code builds it. -/
def handle_message_claimed (ctx : Ctx) (m : Message) : List (Option Nat) :=
  command_handler_part ctx m ++ membership_part ctx m ++ media_part ctx m ++
    (ctx.message_handler.map some).toList

/-- Effects of a callback-query dispatch observable at the platform
client: a handler invocation, or an answerCallbackQuery acknowledgement. -/
inductive CbEffect where
  | invokeHandler : Nat → CbEffect
  | ack : CbEffect
deriving DecidableEq

/-- BaseChatContext.handle_callback_query (context.py lines 123-125):
set last_active to now and invoke the bound callback-query handler when
present.  No acknowledgement is issued. -/
def handle_callback_query (now : Nat) (ctx : Ctx) : Ctx × List CbEffect :=
  ({ ctx with last_active := now },
   match ctx.callbackquery_handler with
   | some h => [CbEffect.invokeHandler h]
   | none => [])

/-- ChatState.handle_callback_query (chatstate.py lines 74-79, the older
revision): set last_active, invoke the bound handler when present, then
unconditionally call bot.answerCallbackQuery. -/
def handle_callback_query_chatstate (now : Nat) (ctx : Ctx) :
    Ctx × List CbEffect :=
  ({ ctx with last_active := now },
   (match ctx.callbackquery_handler with
    | some h => [CbEffect.invokeHandler h]
    | none => []) ++ [CbEffect.ack])

/-- BaseChatContext.on_activate (context.py lines 130-132): set
last_active to now and invoke the activate handler when bound. -/
def on_activate (now : Nat) (ctx : Ctx) : Ctx × List Nat :=
  ({ ctx with last_active := now },
   match ctx.activate_handler with
   | some h => [h]
   | none => [])

/-- BaseChatContext.on_event (context.py lines 144-147): when the event
name has an entry in the handler table, set last_active to now and invoke
every subscriber in order; otherwise do nothing at all. -/
def on_event (now : Nat) (ctx : Ctx) (evt : PyStr) : Ctx × List Nat :=
  match List.lookup evt ctx.event_handlers with
  | some hs => ({ ctx with last_active := now }, hs)
  | none => (ctx, [])

/-- BaseChatContext.on_idle (context.py lines 134-137): result defaults
to True and is replaced by the idle handler's return value when one is
bound. -/
def on_idle (ctx : Ctx) : Bool :=
  match ctx.idle_handler with
  | some b => b
  | none => true

/-- datetime timedelta .seconds attribute: the sub-day seconds component
of a (non-negative) duration given in seconds. -/
def tdSeconds (delta : Nat) : Nat := delta % 86400

/-- ChatContextRegistry.idle (context.py lines 321-330): collect every
context whose (now - last_active).seconds exceeds the idle timeout and
whose on_idle returned a falsy value. -/
def registry_idle (now timeout : Nat) (ctxs : List Ctx) : List Ctx :=
  ctxs.filter (fun c =>
    decide (tdSeconds (now - c.last_active) > timeout) && !(on_idle c))

/-- ChatContextDispatcher.idle_check (dispatcher.py lines 216-226): ask
the registry for the idle list, then remove each of its contexts from the
table by chat id.  Returns (remaining table, removed contexts). -/
def idle_check (now timeout : Nat) (ctxs : List Ctx) :
    List Ctx × List Ctx :=
  let to_deactivate := registry_idle now timeout ctxs
  (ctxs.filter (fun c =>
     !(to_deactivate.any (fun d => decide (d.chat_id = c.chat_id)))),
   to_deactivate)

/-- Python exceptions distinguished by the dispatch layer's try/except
clauses: queue.Empty, telegram.error.TelegramError, anything else. -/
inductive PyExc where
  | empty : PyExc
  | telegramError : PyExc
  | other : Nat → PyExc
deriving DecidableEq

/-- One iteration of ThreadPool.run_thread's while body (threadpool.py
lines 72-79): queue.get either times out (raising Empty, modelled by a
none item) or yields a task whose execution result is the given Except
value; the surrounding try swallows Empty only. -/
def run_thread_iter (item : Option (Except PyExc Unit)) :
    Except PyExc Unit :=
  let body : Except PyExc Unit :=
    match item with
    | none => Except.error PyExc.empty
    | some r => r
  match body with
  | Except.error PyExc.empty => Except.ok ()
  | r => r

/-- The run_thread loop over a finite schedule of queue results: it keeps
consuming items until an iteration lets an exception escape, which ends
the worker thread with that exception. -/
def run_thread : List (Option (Except PyExc Unit)) → Except PyExc Unit
  | [] => Except.ok ()
  | item :: rest =>
    match run_thread_iter item with
    | Except.ok _ => run_thread rest
    | Except.error e => Except.error e

/-- ChatContextDispatcher.dispatch_update (dispatcher.py lines 202-214):
the body runs under a try that catches TelegramError only; any other
exception escapes to the caller. -/
def dispatch_update (body : Except PyExc Unit) : Except PyExc Unit :=
  match body with
  | Except.error PyExc.telegramError => Except.ok ()
  | r => r

/-- str.lower() over the character-list model. -/
def pyLower (s : PyStr) : PyStr := s.map Char.toLower

/-- InlineQueryProcessor.process (dispatcher.py lines 121-132): lowercase
the query, then scan the registration dict in insertion order and pick
the first key satisfying key.startswith(lquery.lower()), i.e. the first
registered key of which the lowered query is a prefix. -/
def inlinequery_select (reg : List (PyStr × Nat)) (query : PyStr) :
    Option Nat :=
  let lquery := pyLower query
  (reg.find? (fun kv => (pyLower lquery).isPrefixOf kv.1)).map Prod.snd

/-- Modelled from the spec (claim C7): select the handler registered
under the longest key that is a case-insensitive prefix of the query
text, breaking length ties by registration order. -/
def inlinequery_select_claimed (reg : List (PyStr × Nat)) (query : PyStr) :
    Option Nat :=
  let hits := reg.filter (fun kv => (pyLower kv.1).isPrefixOf (pyLower query))
  let best := hits.foldl (fun acc kv => max acc kv.1.length) 0
  (hits.find? (fun kv => kv.1.length = best)).map Prod.snd

/-! ### The double-checked creation race (MessageProcessor.process)

MessageProcessor.process (dispatcher.py lines 48-70) runs, per inbound
first event, the sequence: read the context table; on a miss acquire the
global LOCK, re-read, and when still missing construct a context through
ChatContextManager.new_chat_context (context.py lines 349-352) and
publish it into the table, all before releasing the lock.  We model an
unbounded set of threads racing this protocol for one conversation id.
Sessions are numbered by construction order, so two threads finishing
with the same number finished with the same instance; each construction
runs BaseChatContext.activate exactly once (context.py line 15). -/

/-- Program counter of one thread running the getOrCreate protocol. -/
inductive TState where
  | start : TState
  | waitLock : TState
  | locked : TState
  | creating : TState
  | unlock : Nat → TState
  | done : Nat → TState
deriving DecidableEq

/-- Global state of the race: the published table entry for the
conversation id, the LOCK owner, how many contexts were constructed
(and hence activated), and every thread's program counter. -/
structure DState where
  table : Option Nat
  lock : Option Nat
  constructed : Nat
  ts : Nat → TState

/-- Interleaved small-step semantics of the double-checked protocol:
unlocked read (hit or miss), lock acquisition when free, locked re-read
(hit or miss), construction-and-publish under the lock, lock release. -/
inductive Step : DState → DState → Prop where
  | readHit (σ : DState) (t s : Nat) :
      σ.ts t = TState.start → σ.table = some s →
      Step σ { σ with ts := Function.update σ.ts t (TState.done s) }
  | readMiss (σ : DState) (t : Nat) :
      σ.ts t = TState.start → σ.table = none →
      Step σ { σ with ts := Function.update σ.ts t TState.waitLock }
  | acquire (σ : DState) (t : Nat) :
      σ.ts t = TState.waitLock → σ.lock = none →
      Step σ { σ with lock := some t,
                      ts := Function.update σ.ts t TState.locked }
  | recheckHit (σ : DState) (t s : Nat) :
      σ.ts t = TState.locked → σ.table = some s →
      Step σ { σ with ts := Function.update σ.ts t (TState.unlock s) }
  | recheckMiss (σ : DState) (t : Nat) :
      σ.ts t = TState.locked → σ.table = none →
      Step σ { σ with ts := Function.update σ.ts t TState.creating }
  | create (σ : DState) (t : Nat) :
      σ.ts t = TState.creating →
      Step σ { σ with table := some σ.constructed,
                      constructed := σ.constructed + 1,
                      ts := Function.update σ.ts t (TState.unlock σ.constructed) }
  | release (σ : DState) (t s : Nat) :
      σ.ts t = TState.unlock s →
      Step σ { σ with lock := none,
                      ts := Function.update σ.ts t (TState.done s) }

/-- Initial state: empty table, free lock, nothing constructed, every
thread about to perform its unlocked read. -/
def initState : DState :=
  { table := none, lock := none, constructed := 0,
    ts := fun _ => TState.start }

/-- States reachable by interleaving protocol steps from the start. -/
def Reachable (σ : DState) : Prop :=
  Relation.ReflTransGen Step initState σ

/-- A thread in this range of program counters holds the global LOCK. -/
def holdsLock (σ : DState) (t : Nat) : Prop :=
  σ.ts t = TState.locked ∨ σ.ts t = TState.creating ∨
    ∃ s, σ.ts t = TState.unlock s

/-- Inductive invariant of the creation race. -/
def Inv (σ : DState) : Prop :=
  σ.constructed ≤ 1 ∧
  (σ.table = none → σ.constructed = 0) ∧
  (∀ s, σ.table = some s → s = 0 ∧ σ.constructed = 1) ∧
  (∀ t, holdsLock σ t → σ.lock = some t) ∧
  (∀ t, σ.ts t = TState.creating → σ.table = none) ∧
  (∀ t s, σ.ts t = TState.unlock s → σ.table = some s) ∧
  (∀ t s, σ.ts t = TState.done s → σ.table = some s)

/-! Concrete states of one complete run of thread 0, used to witness the
race theorem: read miss, acquire, re-read miss, construct, release. -/

def dclW1 : DState :=
  { initState with ts := Function.update initState.ts 0 TState.waitLock }

def dclW2 : DState :=
  { dclW1 with lock := some 0,
               ts := Function.update dclW1.ts 0 TState.locked }

def dclW3 : DState :=
  { dclW2 with ts := Function.update dclW2.ts 0 TState.creating }

def dclW4 : DState :=
  { dclW3 with table := some dclW3.constructed,
               constructed := dclW3.constructed + 1,
               ts := Function.update dclW3.ts 0 (TState.unlock dclW3.constructed) }

def dclW5 : DState :=
  { dclW4 with lock := none,
               ts := Function.update dclW4.ts 0 (TState.done 0) }

/-! ### Concrete inputs used by witnesses and counterexamples. -/

/-- A context with every handler slot empty. -/
def baseCtx : Ctx :=
  { chat_id := 1, chat_type := PRIVATE, me_username := "thisbot".toList,
    bot_id := 100, message_handler := none, command_handlers := [],
    document_handler := none, photo_handler := none, video_handler := none,
    callbackquery_handler := none, event_handlers := [],
    activate_handler := none, newchatmember_handler := none,
    leftchatmember_handler := none, idle_handler := none,
    stop_handler := none, last_active := 0 }

/-- A group context holding a /help command handler. -/
def groupHelpCtx : Ctx :=
  { baseCtx with chat_type := GROUP,
                 command_handlers := [("/help".toList, 3)] }

/-- A message with no entities, no membership changes and no media. -/
def emptyMessage : Message :=
  { text := [], entities := [], new_chat_members := [],
    left_chat_member := none, document := false, photo := false,
    video := false }

/-- A context with a bound callback-query handler. -/
def cbCtx : Ctx := { baseCtx with callbackquery_handler := some 1 }

/-- A context whose idle handler reports it safe to evict. -/
def idleStaleCtx : Ctx :=
  { baseCtx with chat_id := 9, idle_handler := some false }

/-- A context subscribed to the price_update event. -/
def subCtx : Ctx :=
  { baseCtx with last_active := 5,
                 event_handlers := [("price_update".toList, [4])] }

/-- An inline-query registration table with one key. -/
def iqReg : List (PyStr × Nat) := [("abc".toList, 7)]

/-! ## Theorems -/

theorem update_cases {f : Nat → TState} {t u : Nat} {v w : TState}
    (h : Function.update f t v u = w) :
    (u = t ∧ v = w) ∨ (u ≠ t ∧ f u = w) := by
  by_cases hut : u = t
  · subst hut
    rw [Function.update_same] at h
    exact Or.inl ⟨rfl, h⟩
  · rw [Function.update_noteq hut] at h
    exact Or.inr ⟨hut, h⟩

theorem holdsLock_elim {σ : DState} {t u : Nat} {v : TState}
    (hu : holdsLock { σ with ts := Function.update σ.ts t v } u)
    (hv : v ≠ TState.locked ∧ v ≠ TState.creating ∧ ∀ s, v ≠ TState.unlock s) :
    u ≠ t ∧ holdsLock σ u := by
  rcases hu with h | h | ⟨s, h⟩
  · rcases update_cases h with ⟨hut, hw⟩ | ⟨hut, hw⟩
    · exact absurd hw hv.1
    · exact ⟨hut, Or.inl hw⟩
  · rcases update_cases h with ⟨hut, hw⟩ | ⟨hut, hw⟩
    · exact absurd hw hv.2.1
    · exact ⟨hut, Or.inr (Or.inl hw)⟩
  · rcases update_cases h with ⟨hut, hw⟩ | ⟨hut, hw⟩
    · exact absurd hw (hv.2.2 s)
    · exact ⟨hut, Or.inr (Or.inr ⟨s, hw⟩)⟩

theorem inv_init : Inv initState := by
  refine ⟨?_, ?_, ?_, ?_, ?_, ?_, ?_⟩ <;>
    simp [initState, holdsLock]

theorem inv_step {σ σ' : DState} (hI : Inv σ) (hs : Step σ σ') : Inv σ' := by
  obtain ⟨h1, h2, h3, h4, h5, h6, h7⟩ := hI
  cases hs with
  | readHit t s ht htab =>
    refine ⟨h1, h2, h3, ?_, ?_, ?_, ?_⟩
    · intro u hu
      exact h4 u (holdsLock_elim hu (by simp)).2
    · intro u hu
      rcases update_cases hu with ⟨_, hw⟩ | ⟨_, hw⟩
      · exact absurd hw (by simp)
      · exact h5 u hw
    · intro u s' hu
      rcases update_cases hu with ⟨_, hw⟩ | ⟨_, hw⟩
      · exact absurd hw (by simp)
      · exact h6 u s' hw
    · intro u s' hu
      rcases update_cases hu with ⟨_, hw⟩ | ⟨_, hw⟩
      · cases hw
        exact htab
      · exact h7 u s' hw
  | readMiss t ht htab =>
    refine ⟨h1, h2, h3, ?_, ?_, ?_, ?_⟩
    · intro u hu
      exact h4 u (holdsLock_elim hu (by simp)).2
    · intro u hu
      rcases update_cases hu with ⟨_, hw⟩ | ⟨_, hw⟩
      · exact absurd hw (by simp)
      · exact h5 u hw
    · intro u s' hu
      rcases update_cases hu with ⟨_, hw⟩ | ⟨_, hw⟩
      · exact absurd hw (by simp)
      · exact h6 u s' hw
    · intro u s' hu
      rcases update_cases hu with ⟨_, hw⟩ | ⟨_, hw⟩
      · exact absurd hw (by simp)
      · exact h7 u s' hw
  | acquire t ht hl =>
    refine ⟨h1, h2, h3, ?_, ?_, ?_, ?_⟩
    · intro u hu
      rcases hu with h | h | ⟨s, h⟩
      · rcases update_cases h with ⟨hut, _⟩ | ⟨hut, hw⟩
        · simp [hut]
        · exact absurd (h4 u (Or.inl hw)) (by simp [hl])
      · rcases update_cases h with ⟨_, hw⟩ | ⟨hut, hw⟩
        · exact absurd hw (by simp)
        · exact absurd (h4 u (Or.inr (Or.inl hw))) (by simp [hl])
      · rcases update_cases h with ⟨_, hw⟩ | ⟨hut, hw⟩
        · exact absurd hw (by simp)
        · exact absurd (h4 u (Or.inr (Or.inr ⟨s, hw⟩))) (by simp [hl])
    · intro u hu
      rcases update_cases hu with ⟨_, hw⟩ | ⟨_, hw⟩
      · exact absurd hw (by simp)
      · exact h5 u hw
    · intro u s' hu
      rcases update_cases hu with ⟨_, hw⟩ | ⟨_, hw⟩
      · exact absurd hw (by simp)
      · exact h6 u s' hw
    · intro u s' hu
      rcases update_cases hu with ⟨_, hw⟩ | ⟨_, hw⟩
      · exact absurd hw (by simp)
      · exact h7 u s' hw
  | recheckHit t s ht htab =>
    refine ⟨h1, h2, h3, ?_, ?_, ?_, ?_⟩
    · intro u hu
      rcases hu with h | h | ⟨s', h⟩
      · rcases update_cases h with ⟨hut, hw⟩ | ⟨hut, hw⟩
        · exact absurd hw (by simp)
        · exact h4 u (Or.inl hw)
      · rcases update_cases h with ⟨_, hw⟩ | ⟨hut, hw⟩
        · exact absurd hw (by simp)
        · exact h4 u (Or.inr (Or.inl hw))
      · rcases update_cases h with ⟨hut, hw⟩ | ⟨hut, hw⟩
        · subst hut
          exact h4 u (Or.inl ht)
        · exact h4 u (Or.inr (Or.inr ⟨s', hw⟩))
    · intro u hu
      rcases update_cases hu with ⟨_, hw⟩ | ⟨_, hw⟩
      · exact absurd hw (by simp)
      · exact h5 u hw
    · intro u s' hu
      rcases update_cases hu with ⟨_, hw⟩ | ⟨_, hw⟩
      · cases hw
        exact htab
      · exact h6 u s' hw
    · intro u s' hu
      rcases update_cases hu with ⟨_, hw⟩ | ⟨_, hw⟩
      · exact absurd hw (by simp)
      · exact h7 u s' hw
  | recheckMiss t ht htab =>
    refine ⟨h1, h2, h3, ?_, ?_, ?_, ?_⟩
    · intro u hu
      rcases hu with h | h | ⟨s', h⟩
      · rcases update_cases h with ⟨_, hw⟩ | ⟨hut, hw⟩
        · exact absurd hw (by simp)
        · exact h4 u (Or.inl hw)
      · rcases update_cases h with ⟨hut, _⟩ | ⟨hut, hw⟩
        · subst hut
          exact h4 u (Or.inl ht)
        · exact h4 u (Or.inr (Or.inl hw))
      · rcases update_cases h with ⟨_, hw⟩ | ⟨hut, hw⟩
        · exact absurd hw (by simp)
        · exact h4 u (Or.inr (Or.inr ⟨s', hw⟩))
    · intro u hu
      exact htab
    · intro u s' hu
      rcases update_cases hu with ⟨_, hw⟩ | ⟨_, hw⟩
      · exact absurd hw (by simp)
      · exact h6 u s' hw
    · intro u s' hu
      rcases update_cases hu with ⟨_, hw⟩ | ⟨_, hw⟩
      · exact absurd hw (by simp)
      · exact h7 u s' hw
  | create t ht =>
    have htab : σ.table = none := h5 t ht
    have hc : σ.constructed = 0 := h2 htab
    refine ⟨?_, ?_, ?_, ?_, ?_, ?_, ?_⟩
    · simp [hc]
    · intro h
      exact absurd h (by simp)
    · intro s' hs'
      have : σ.constructed = s' := Option.some.inj hs'
      constructor
      · rw [← this, hc]
      · simp [hc]
    · intro u hu
      rcases hu with h | h | ⟨s', h⟩
      · rcases update_cases h with ⟨_, hw⟩ | ⟨hut, hw⟩
        · exact absurd hw (by simp)
        · exact h4 u (Or.inl hw)
      · rcases update_cases h with ⟨_, hw⟩ | ⟨hut, hw⟩
        · exact absurd hw (by simp)
        · exact h4 u (Or.inr (Or.inl hw))
      · rcases update_cases h with ⟨hut, _⟩ | ⟨hut, hw⟩
        · subst hut
          exact h4 u (Or.inr (Or.inl ht))
        · exact h4 u (Or.inr (Or.inr ⟨s', hw⟩))
    · intro u hu
      rcases update_cases hu with ⟨_, hw⟩ | ⟨hut, hw⟩
      · exact absurd hw (by simp)
      · have hlu : σ.lock = some u := h4 u (Or.inr (Or.inl hw))
        have hlt : σ.lock = some t := h4 t (Or.inr (Or.inl ht))
        have : u = t := by
          have := hlu.symm.trans hlt
          exact Option.some.inj this
        exact absurd this hut
    · intro u s' hu
      rcases update_cases hu with ⟨hut, hw⟩ | ⟨hut, hw⟩
      · cases hw
        rfl
      · exact absurd (h6 u s' hw) (by simp [htab])
    · intro u s' hu
      rcases update_cases hu with ⟨_, hw⟩ | ⟨hut, hw⟩
      · exact absurd hw (by simp)
      · exact absurd (h7 u s' hw) (by simp [htab])
  | release t s ht =>
    refine ⟨h1, h2, h3, ?_, ?_, ?_, ?_⟩
    · intro u hu
      have h' := holdsLock_elim hu (by simp)
      have hlu : σ.lock = some u := h4 u h'.2
      have hlt : σ.lock = some t := h4 t (Or.inr (Or.inr ⟨s, ht⟩))
      have : u = t := Option.some.inj (hlu.symm.trans hlt)
      exact absurd this h'.1
    · intro u hu
      rcases update_cases hu with ⟨_, hw⟩ | ⟨_, hw⟩
      · exact absurd hw (by simp)
      · exact h5 u hw
    · intro u s' hu
      rcases update_cases hu with ⟨_, hw⟩ | ⟨_, hw⟩
      · exact absurd hw (by simp)
      · exact h6 u s' hw
    · intro u s' hu
      rcases update_cases hu with ⟨hut, hw⟩ | ⟨_, hw⟩
      · cases hw
        exact h6 t s ht
      · exact h7 u s' hw

theorem reachable_inv {σ : DState} (h : Reachable σ) : Inv σ := by
  induction h with
  | refl => exact inv_init
  | tail _ hstep ih => exact inv_step ih hstep

/-- C1: in any interleaving of concurrent getOrCreate protocol runs for
one conversation id (MessageProcessor.process's read, lock, re-read,
construct, publish on the shared table), at most one context is ever
constructed — hence BaseChatContext.activate runs at most once — every
finished thread returns the same instance, and as soon as any thread has
finished, exactly one construction (and activation) has occurred. -/
theorem single_session_per_conversation (σ : DState) (h : Reachable σ) :
    σ.constructed ≤ 1 ∧
    (∀ t u s s', σ.ts t = TState.done s → σ.ts u = TState.done s' → s = s') ∧
    ((∃ t s, σ.ts t = TState.done s) → σ.constructed = 1) := by
  obtain ⟨h1, _, h3, _, _, _, h7⟩ := reachable_inv h
  refine ⟨h1, ?_, ?_⟩
  · intro t u s s' hts htu
    have hs := (h3 s (h7 t s hts)).1
    have hs' := (h3 s' (h7 u s' htu)).1
    rw [hs, hs']
  · rintro ⟨t, s, hts⟩
    exact (h3 s (h7 t s hts)).2

theorem dcl_run : Reachable dclW5 := by
  have s1 : Step initState dclW1 := Step.readMiss initState 0 rfl rfl
  have s2 : Step dclW1 dclW2 :=
    Step.acquire dclW1 0 (by simp [dclW1, initState]) rfl
  have s3 : Step dclW2 dclW3 :=
    Step.recheckMiss dclW2 0 (by simp [dclW2, dclW1, initState]) rfl
  have s4 : Step dclW3 dclW4 :=
    Step.create dclW3 0 (by simp [dclW3, dclW2, dclW1, initState])
  have s5 : Step dclW4 dclW5 :=
    Step.release dclW4 0 0 (by simp [dclW4, dclW3, dclW2, dclW1, initState])
  exact Relation.ReflTransGen.tail
    (Relation.ReflTransGen.tail
      (Relation.ReflTransGen.tail
        (Relation.ReflTransGen.tail (Relation.ReflTransGen.single s1) s2)
        s3)
      s4)
    s5

/-- Witness for C1: after a concrete complete run of thread 0 the
theorem yields that exactly one construction took place. -/
theorem single_session_per_conversation_witness :
    dclW5.constructed ≤ 1 ∧ dclW5.constructed = 1 :=
  ⟨(single_session_per_conversation dclW5 dcl_run).1,
   (single_session_per_conversation dclW5 dcl_run).2.2
     ⟨0, 0, by simp [dclW5, dclW4, dclW3, dclW2, dclW1, initState]⟩⟩

/-- C4: command addressing in _process_entities.  In a private
conversation every bot_command entity is considered addressed to the bot,
so both /cmd and /cmd@anyname resolve against the /cmd handler table
entry; elsewhere an entity carrying a trailing @name token resolves to
the handler of its command part exactly when that token equals the
running bot's username, and resolves to nothing otherwise. -/
theorem command_addressing (ctx : Ctx) (entity : PyStr) :
    (ctx.chat_type = PRIVATE →
      (process_command ctx entity).1 =
        (List.lookup (commandPart entity) ctx.command_handlers).toList) ∧
    (ctx.chat_type ≠ PRIVATE → ∀ c r, _split_recipient entity = some (c, r) →
      (process_command ctx entity).1 =
        if r = ctx.me_username
        then (List.lookup c ctx.command_handlers).toList
        else []) := by
  constructor
  · intro hpriv
    cases hsp : _split_recipient entity with
    | none =>
      cases hl : List.lookup entity ctx.command_handlers <;>
        simp [process_command, commandPart, hsp, hpriv, hl]
    | some p =>
      cases hl : List.lookup p.1 ctx.command_handlers <;>
        simp [process_command, commandPart, hsp, hpriv, hl]
  · intro hnp c r hsp
    by_cases hr : r = ctx.me_username
    · cases hl : List.lookup c ctx.command_handlers <;>
        simp [process_command, hsp, hnp, hr, hl]
    · simp [process_command, hsp, hnp, hr]

/-- Witness for C4: in a group, /help@otherbot is routed to no handler
although a /help handler is registered. -/
theorem command_addressing_witness :
    (process_command groupHelpCtx ("/help@otherbot".toList)).1 = [] := by
  have h := (command_addressing groupHelpCtx ("/help@otherbot".toList)).2
    (by decide) ("/help".toList) ("otherbot".toList) (by decide)
  rw [h, if_neg (by decide)]

/-- C10: in a non-private conversation, a bot_command entity carrying no
'@' suffix is never considered addressed to the bot: no command handler
is matched and no session removal is requested, even for /stop. -/
theorem group_command_without_suffix_ignored (ctx : Ctx) (entity : PyStr)
    (hnp : ctx.chat_type ≠ PRIVATE)
    (hsp : _split_recipient entity = none) :
    process_command ctx entity = ([], 0) := by
  simp [process_command, hsp, hnp]

/-- Witness for C10: a bare /stop in a group context matches nothing and
removes nothing. -/
theorem group_command_without_suffix_ignored_witness :
    process_command groupHelpCtx stop_text = ([], 0) :=
  group_command_without_suffix_ignored groupHelpCtx stop_text
    (by decide) (by decide)

theorem fold_newmember (ho : Option Nat) (l : List Member)
    (acc : List (Option Nat)) :
    l.foldl (fun a _ => if ho.isSome then a ++ [ho] else a) acc =
      acc ++ (if ho.isSome then List.replicate l.length ho else []) := by
  induction l generalizing acc with
  | nil => simp
  | cons x xs ih =>
    by_cases hs : ho.isSome
    · have ih' := ih (acc ++ [ho])
      simp [hs] at ih'
      simp [hs, ih', List.replicate_succ, List.append_assoc]
    · simp [hs, ih]

theorem media_step (b : Bool) (ho : Option Nat) (acc : List (Option Nat)) :
    (if b && ho.isSome then acc ++ [ho] else acc) =
      acc ++ (if b && ho.isSome then [ho] else []) := by
  split <;> simp

/-- C5 counterexample: with no default message handler bound, the code
still appends the empty message-handler slot, so the built list differs
from the claim's list (which would append nothing); the invocation loop
then calls the missing handler. -/
theorem default_handler_always_appended_counterexample :
    (handle_message 0 baseCtx emptyMessage).2.1 ≠
      handle_message_claimed baseCtx emptyMessage := by
  decide

/-- C5 (amended): handle_message builds exactly (a) the entity-derived
command handlers, (b) the membership-change handlers, (c) the media
handlers for present media with a bound handler, then (d) the default
message-handler slot, which is appended unconditionally — even when no
message handler is bound — rather than only when one is bound. -/
theorem handle_message_handler_order (now : Nat) (ctx : Ctx) (m : Message) :
    (handle_message now ctx m).2.1 =
      command_handler_part ctx m ++ membership_part ctx m ++ media_part ctx m
        ++ [ctx.message_handler] := by
  rcases m with ⟨text, ents, njoin, lleft, mdoc, mphoto, mvideo⟩
  simp only [handle_message, command_handler_part, membership_part,
    media_part]
  rw [media_step, media_step, media_step, fold_newmember]
  rcases lleft with _ | member
  · by_cases he : ents = [] <;>
      simp [he, List.append_assoc]
  · by_cases hid : member.id = ctx.bot_id
    · by_cases he : ents = [] <;>
        simp [he, hid, List.append_assoc]
    · by_cases hleft : ctx.leftchatmember_handler.isSome <;>
        by_cases he : ents = [] <;>
          simp [he, hid, hleft, List.append_assoc]

/-- C2 counterexample: a session with no idle handler whose idle time
exceeds the timeout is kept, not evicted — absence of an idle handler
defaults to keep-alive (on_idle returns true), contrary to the claim. -/
theorem idle_default_keeps_session :
    tdSeconds (2000 - baseCtx.last_active) > 1800 ∧
    baseCtx.idle_handler = none ∧
    (idle_check 2000 1800 [baseCtx]).2 = [] ∧
    (idle_check 2000 1800 [baseCtx]).1 = [baseCtx] := by
  decide

/-- C2 (amended): for every session whose (now - lastActive).seconds
component exceeds the timeout at sweep time, the sweep evicts it exactly
when its on_idle result is false — i.e. a bound idle handler returned
false; a handler returning true, or the absence of any idle handler
(on_idle defaults to true), keeps the session in the table. -/
theorem idle_sweep_veto (now timeout : Nat) (ctxs : List Ctx) (c : Ctx)
    (hc : c ∈ ctxs) (ht : tdSeconds (now - c.last_active) > timeout) :
    (c ∈ (idle_check now timeout ctxs).2 ↔ on_idle c = false) ∧
    (on_idle c = false →
      ∀ d ∈ (idle_check now timeout ctxs).1, d.chat_id ≠ c.chat_id) := by
  have hmem : c ∈ (idle_check now timeout ctxs).2 ↔ on_idle c = false := by
    simp only [idle_check, registry_idle, List.mem_filter,
      Bool.and_eq_true, decide_eq_true_eq, Bool.not_eq_true']
    constructor
    · intro h
      exact h.2.2
    · intro h
      exact ⟨hc, ht, h⟩
  refine ⟨hmem, ?_⟩
  intro hfalse d hd heq
  have hcin : c ∈ (idle_check now timeout ctxs).2 := hmem.mpr hfalse
  simp only [idle_check, List.mem_filter, Bool.not_eq_true',
    List.any_eq_false, decide_eq_true_eq] at hd
  exact hd.2 c hcin heq.symm

/-- Witness for C2: a session whose idle handler returned false and
whose idle time exceeds the timeout is in the evicted list. -/
theorem idle_sweep_veto_witness :
    idleStaleCtx ∈ (idle_check 2000 1800 [idleStaleCtx]).2 :=
  (idle_sweep_veto 2000 1800 [idleStaleCtx] idleStaleCtx
      (by decide) (by decide)).1.mpr (by decide)

/-- C8: ChatContextRegistry.idle compares (now - last_active).seconds —
the sub-day seconds component — against the timeout, so a session idle
for a day plus ten seconds (far beyond the 1800 s timeout, and with its
idle handler saying it is safe to evict) is not reported as an idle
candidate and survives the sweep, while the same session idle a mere
2000 s is evicted. -/
theorem idle_candidates_day_wraparound :
    86410 - idleStaleCtx.last_active > 1800 ∧
    on_idle idleStaleCtx = false ∧
    registry_idle 86410 1800 [idleStaleCtx] = [] ∧
    (idle_check 86410 1800 [idleStaleCtx]).1 = [idleStaleCtx] ∧
    registry_idle 2000 1800 [idleStaleCtx] = [idleStaleCtx] := by
  decide

/-- C3 counterexample: a Session (context.py) handling a callback query
with a bound callback handler acknowledges the callback zero times, not
exactly once. -/
theorem callback_not_acknowledged_counterexample :
    ((handle_callback_query 7 cbCtx).2).count CbEffect.ack ≠ 1 := by
  decide

/-- C3 (amended): the canonical Session (context.py) never acknowledges
a callback query: handle_callback_query updates last-active and invokes
the bound handler exactly when one exists, producing no ack effect; the
older ChatState revision (chatstate.py) instead acknowledges exactly
once regardless of whether a handler was bound (with no handling of an
acknowledgement failure). -/
theorem callback_acknowledgement (now : Nat) (ctx : Ctx) :
    ((handle_callback_query now ctx).2).count CbEffect.ack = 0 ∧
    (∀ h, ctx.callbackquery_handler = some h →
      (handle_callback_query now ctx).2 = [CbEffect.invokeHandler h]) ∧
    (ctx.callbackquery_handler = none →
      (handle_callback_query now ctx).2 = []) ∧
    ((handle_callback_query_chatstate now ctx).2).count CbEffect.ack = 1 := by
  cases hcb : ctx.callbackquery_handler <;>
    simp [handle_callback_query, handle_callback_query_chatstate, hcb]

/-- Witness for C3: with a bound handler, the effect trace is exactly
one handler invocation and no acknowledgement. -/
theorem callback_acknowledgement_witness :
    (handle_callback_query 7 cbCtx).2 = [CbEffect.invokeHandler 1] :=
  (callback_acknowledgement 7 cbCtx).2.1 1 rfl

/-- C6 counterexample: an exception other than queue.Empty raised by a
queued handler leaves one run_thread iteration (and hence the worker
loop) as an uncaught error, and an exception other than TelegramError
inside dispatch_update's body escapes dispatch_update — neither is
contained by the dispatch layer. -/
theorem handler_exception_escapes :
    run_thread_iter (some (Except.error (PyExc.other 0))) ≠ Except.ok () ∧
    dispatch_update (Except.error (PyExc.other 0)) ≠ Except.ok () := by
  refine ⟨fun h => ?_, fun h => ?_⟩
  · simp [run_thread_iter] at h
  · simp [dispatch_update] at h

/-- C6 (amended): the worker loop catches only queue.Empty and
dispatch_update catches only TelegramError; any other exception raised
by handler code propagates — ending the worker thread before later
queued tasks run in pooled mode, and reaching dispatch_update's caller
in inline mode — while an Empty timeout and a TelegramError are
swallowed. -/
theorem exception_containment (e : PyExc) :
    (e ≠ PyExc.empty →
      run_thread_iter (some (Except.error e)) = Except.error e) ∧
    (e ≠ PyExc.empty →
      run_thread [some (Except.error e), some (Except.ok ())] =
        Except.error e) ∧
    (e ≠ PyExc.telegramError →
      dispatch_update (Except.error e) = Except.error e) ∧
    run_thread_iter none = Except.ok () ∧
    dispatch_update (Except.error PyExc.telegramError) = Except.ok () := by
  refine ⟨?_, ?_, ?_, rfl, rfl⟩
  · intro he
    cases e with
    | empty => exact absurd rfl he
    | telegramError => rfl
    | other n => rfl
  · intro he
    cases e with
    | empty => exact absurd rfl he
    | telegramError => rfl
    | other n => rfl
  · intro he
    cases e with
    | empty => rfl
    | telegramError => exact absurd rfl he
    | other n => rfl

/-- Witness for C6: a generic handler exception escapes both the worker
iteration and dispatch_update. -/
theorem exception_containment_witness :
    run_thread_iter (some (Except.error (PyExc.other 7))) =
      Except.error (PyExc.other 7) ∧
    dispatch_update (Except.error (PyExc.other 7)) =
      Except.error (PyExc.other 7) :=
  ⟨(exception_containment (PyExc.other 7)).1 (by decide),
   (exception_containment (PyExc.other 7)).2.2.1 (by decide)⟩

/-- C7 counterexample: with "abc" registered, the query "abcdef" — of
which the registered key "abc" is a (case-insensitive) prefix — selects
no handler in the code, while the claim's longest-registered-prefix rule
selects handler 7: the code tests key.startswith(query.lower()), the
reverse of the claimed relation. -/
theorem inlinequery_reversed_match_counterexample :
    inlinequery_select iqReg ("abcdef".toList) = none ∧
    inlinequery_select_claimed iqReg ("abcdef".toList) = some 7 := by
  refine ⟨rfl, rfl⟩

/-- C7 (amended): InlineQueryProcessor.process selects the handler of
the first registered key (in registration order) that has the lowercased
query text as a prefix of the key — the key itself compared verbatim —
and selects nothing when no registered key does; the registered key
length plays no role beyond this first match. -/
theorem inlinequery_first_match (reg : List (PyStr × Nat)) (query : PyStr) :
    (inlinequery_select reg query = none ∧
      ∀ kv ∈ reg, ¬((pyLower (pyLower query)).isPrefixOf kv.1 = true)) ∨
    (∃ pre kv post, reg = pre ++ kv :: post ∧
      (pyLower (pyLower query)).isPrefixOf kv.1 = true ∧
      (∀ kv' ∈ pre, ¬((pyLower (pyLower query)).isPrefixOf kv'.1 = true)) ∧
      inlinequery_select reg query = some kv.2) := by
  induction reg with
  | nil => exact Or.inl ⟨rfl, by simp⟩
  | cons kv rest ih =>
    by_cases hkv : (pyLower (pyLower query)).isPrefixOf kv.1 = true
    · refine Or.inr ⟨[], kv, rest, rfl, hkv, by simp, ?_⟩
      simp [inlinequery_select, List.find?_cons_of_pos, hkv]
    · have hsel :
          inlinequery_select (kv :: rest) query =
            inlinequery_select rest query := by
        simp [inlinequery_select, List.find?_cons_of_neg, hkv]
      rcases ih with ⟨hnone, hall⟩ | ⟨pre, kv', post, hreg, hkv', hpre, hs⟩
      · refine Or.inl ⟨hsel.trans hnone, ?_⟩
        intro kv' hkv'
        rcases List.mem_cons.mp hkv' with h | h
        · rw [h]
          exact hkv
        · exact hall kv' h
      · refine Or.inr ⟨kv :: pre, kv', post, ?_, hkv', ?_, hsel.trans hs⟩
        · rw [List.cons_append, hreg]
        · intro kv'' hkv''
          rcases List.mem_cons.mp hkv'' with h | h
          · rw [h]
            exact hkv
          · exact hpre kv'' h

/-- Witness for C7: for query "ab" against the table registering "abc",
the first-match disjunction pins the selection to handler 7 — the code
matches when the query is a prefix of the key. -/
theorem inlinequery_first_match_witness :
    inlinequery_select iqReg ("ab".toList) = some 7 := by
  rcases inlinequery_first_match iqReg ("ab".toList) with
    ⟨_, hall⟩ | ⟨pre, kv, post, hreg, _, _, hs⟩
  · exact absurd (by decide) (hall ("abc".toList, 7) (by simp [iqReg]))
  · cases pre with
    | nil =>
      simp only [iqReg, List.nil_append] at hreg
      injection hreg with h1 h2
      rw [← h1] at hs
      exact hs
    | cons x xs =>
      simp only [iqReg, List.cons_append, List.cons.injEq] at hreg
      rcases hreg with ⟨-, h2⟩
      exact absurd h2.symm (by simp)

/-- C9 counterexample: on_event with an event name that has no
subscriber leaves last-active untouched instead of updating it to the
current time. -/
theorem on_event_unknown_name_keeps_last_active :
    (on_event 10 baseCtx ("price_update".toList)).1.last_active ≠ 10 := by
  decide

/-- C9 (amended): handle_message, handle_callback_query and on_activate
always set last-active to the current time; on_event sets it to the
current time exactly when the event name has a subscriber entry and
leaves it unchanged otherwise; given a monotone clock no operation moves
last-active backwards. -/
theorem last_active_updates (now : Nat) (ctx : Ctx) (m : Message)
    (evt : PyStr) (h : ctx.last_active ≤ now) :
    (handle_message now ctx m).1.last_active = now ∧
    (handle_callback_query now ctx).1.last_active = now ∧
    (on_activate now ctx).1.last_active = now ∧
    ctx.last_active ≤ (on_event now ctx evt).1.last_active ∧
    ((List.lookup evt ctx.event_handlers).isSome →
      (on_event now ctx evt).1.last_active = now) ∧
    (List.lookup evt ctx.event_handlers = none →
      (on_event now ctx evt).1.last_active = ctx.last_active) := by
  refine ⟨rfl, rfl, rfl, ?_, ?_, ?_⟩
  · cases hl : List.lookup evt ctx.event_handlers with
    | none => simp [on_event, hl]
    | some hs => simp [on_event, hl, h]
  · intro hsome
    cases hl : List.lookup evt ctx.event_handlers with
    | none =>
      rw [hl] at hsome
      exact absurd hsome (by simp)
    | some hs => simp [on_event, hl]
  · intro hnone
    simp [on_event, hnone]

/-- Witness for C9: a subscribed event updates last-active to now. -/
theorem last_active_updates_witness :
    (on_event 10 subCtx ("price_update".toList)).1.last_active = 10 :=
  (last_active_updates 10 subCtx emptyMessage ("price_update".toList)
      (by decide)).2.2.2.2.1 (by decide)

end Chatstate



